import Mathlib

/-!
# Verification of `ietf/utils/validators.py`

A shallow embedding of the validator functions of the datatracker file
`ietf/utils/validators.py`, together with theorems settling the claims of the
specification against it.

Conventions of the embedding:

* A Python function that either returns normally or raises `ValidationError`
  is embedded as a function into `Except String α`, the `String` being the
  error message.
* Python `str` values are Lean `String`s; Python `bytes` values are
  `List Nat` (one `Nat` per byte).
* External collaborators that are opaque to this file — the MIME sniffer
  `get_mime_type` (which lives in `ietf/utils/mime.py`, outside the excerpt),
  Python's `re.compile`, and Django's `URLValidator` / `EmailValidator` —
  are taken as explicit function parameters of the embedded validators, so
  every theorem is parametric in them.
* Python library functions with small, well-defined semantics that the
  validators lean on (`os.path.splitext`, `urllib.parse.urlparse`'s netloc
  extraction, `str.lower` on ASCII, `bytes.replace`, Django's
  `filesizeformat`, and the `re.search` semantics of the two concrete
  regular expressions appearing in the file) are translated into Lean
  definitions below, each faithful to the corresponding CPython / Django
  source on the domains the validators exercise (ASCII strings; sizes
  below 2^53, where float division by a power of two is exact).
-/

namespace IetfValidators

/-! ## Characters and substrings -/

/-- A control character in the sense of the pattern `[\x00-\x1f]`:
a code point strictly below `0x20`. -/
def isCtrlChar (c : Char) : Bool :=
  decide (c.toNat < 32)

/-- Python's `needle in haystack` on strings: `true` iff `needle` occurs as a
contiguous substring of `haystack` (the empty needle always occurs). -/
def hasSubList : List Char → List Char → Bool
  | [], needle => needle.isEmpty
  | c :: t, needle => needle.isPrefixOf (c :: t) || hasSubList t needle

/-- Substring containment on `String`, via `hasSubList`. -/
def strContains (haystack needle : String) : Bool :=
  hasSubList haystack.data needle.data

/-- Python's `str.lower` on the ASCII strings the validators handle:
lower-case every character. -/
def pyLower (s : String) : String :=
  ⟨s.data.map Char.toLower⟩

/-! ## `validate_no_control_chars`

The source instantiates Django's `RegexValidator` with the pattern
`"^[^\x00-\x1f]*$"` (and message
`"Please enter a string without control characters."`).  Django's
`RegexValidator.__call__` runs `self.regex.search(str(value))` and raises
with the message when no match is found.  For this concrete pattern,
Python `re.search` semantics are: `^` (no `MULTILINE` flag) anchors at
position 0, `[^\x00-\x1f]*` consumes any run of non-control characters,
and `$` matches at the end of the string *or just before a final newline*.
Hence a match exists iff every character is non-control, or the string ends
in `'\n'` and every character before that final newline is non-control. -/

/-- `re.search("^[^\x00-\x1f]*$", s)` finds a match (Python semantics,
including `$` matching just before a trailing newline). -/
def searchNoCtrlPattern (l : List Char) : Bool :=
  l.all (fun c => !isCtrlChar c) ||
    (decide (l.getLast? = some '\n') && l.dropLast.all (fun c => !isCtrlChar c))

/-- Embedding of the `validate_no_control_chars` validator instance. -/
def validate_no_control_chars (s : String) : Except String Unit :=
  if searchNoCtrlPattern s.data then
    Except.ok ()
  else
    Except.error "Please enter a string without control characters."

/-! ## `RegexStringValidator` -/

/-- An instance of the (stateless) `RegexStringValidator` class. -/
structure RegexStringValidator where

/-- A Python object as far as `RegexStringValidator.__eq__` can observe it:
either an instance of `RegexStringValidator`, or any other object
(summarised by a string tag). -/
inductive PyObject where
  | validator (v : RegexStringValidator)
  | otherObject (tag : String)

/-- `RegexStringValidator.__eq__`: `isinstance(other, RegexStringValidator)`. -/
def RegexStringValidator.eq (_self : RegexStringValidator) (other : PyObject) : Bool :=
  match other with
  | PyObject.validator _ => true
  | PyObject.otherObject _ => false

/-- `RegexStringValidator.__ne__`: `not (self == other)`. -/
def RegexStringValidator.ne (self : RegexStringValidator) (other : PyObject) : Bool :=
  !(self.eq other)

/-- The message raised by `RegexStringValidator.__call__` when `re.compile`
fails with error text `e` on input `value`. -/
def regexCompileErrorMsg (value e : String) : String :=
  "Please enter a valid regular expression.  Got an error when trying to compile this: \""
    ++ value ++ "\" : \"" ++ e ++ "\""

/-- The message raised by `RegexStringValidator.__call__` when the value
contains the literal substring `-*`. -/
def dashStarMsg : String :=
  "Did you really mean that?  The regular expression contains \"-*\" which will match zero or more dashes.  Maybe you meant to write \"-.*\"?  If you actually meant \"-*\", you can use \"[-]*\" instead to get past this error."

/-- Embedding of `RegexStringValidator.__call__`.  `reCompile` abstracts
Python's `re.compile`: `none` means compilation succeeds, `some e` means it
raises an exception rendered as the string `e`. -/
def RegexStringValidator.call (reCompile : String → Option String)
    (value : String) : Except String Unit :=
  match reCompile value with
  | some e => Except.error (regexCompileErrorMsg value e)
  | none =>
    if strContains value "-*" then
      Except.error dashStarMsg
    else
      Except.ok ()

/-! ## `validate_file_size`

The size comparison is `file._size > settings.SECR_MAX_UPLOAD_SIZE`; the
message renders both sizes with Django's `filesizeformat` template filter,
which is translated below from the Django source: buckets of 2^10 (KB),
2^20 (MB), 2^30 (GB), 2^40 (TB), 2^50 (PB), values below 2^10 rendered as
an integer count of bytes, larger values divided by the bucket, rounded to
one decimal place (Python `round`, i.e. round-half-to-even — exact for
sizes below 2^53, where the float quotient by a power of two is exact),
and finally every space replaced by a no-break space (`avoid_wrapping`). -/

/-- Round `num / den` to the nearest integer, ties to even
(the behaviour of Python's `round` on an exactly representable quotient). -/
def roundHalfEven (num den : Nat) : Nat :=
  let q := num / den
  let r := num % den
  if 2 * r < den then q
  else if den < 2 * r then q + 1
  else if q % 2 = 0 then q else q + 1

/-- Render `n / 2^k` rounded to one decimal place, as Django's
`filesize_number_format` does (e.g. `"1.0"`, `"23.4"`). -/
def filesizeNumberFormat (n k : Nat) : String :=
  let t := roundHalfEven (10 * n) (2 ^ k)
  toString (t / 10) ++ "." ++ toString (t % 10)

/-- Django's `avoid_wrapping`: replace every space by a no-break space. -/
def avoidWrapping (s : String) : String :=
  ⟨s.data.map (fun c => if c = ' ' then ' ' else c)⟩

/-- Django's `filesizeformat` template filter, for non-negative sizes. -/
def filesizeformat (n : Nat) : String :=
  avoidWrapping
    (if n < 2 ^ 10 then
      (if n = 1 then "1 byte" else toString n ++ " bytes")
    else if n < 2 ^ 20 then filesizeNumberFormat n 10 ++ " KB"
    else if n < 2 ^ 30 then filesizeNumberFormat n 20 ++ " MB"
    else if n < 2 ^ 40 then filesizeNumberFormat n 30 ++ " GB"
    else if n < 2 ^ 50 then filesizeNumberFormat n 40 ++ " TB"
    else filesizeNumberFormat n 50 ++ " PB")

/-- Embedding of `validate_file_size`.  `maxSize` is the configured
`settings.SECR_MAX_UPLOAD_SIZE`; `size` is the uploaded file's `_size`. -/
def validate_file_size (maxSize size : Nat) : Except String Unit :=
  if size > maxSize then
    Except.error ("Please keep filesize under " ++ filesizeformat maxSize
      ++ ". Requested upload size was " ++ filesizeformat size)
  else
    Except.ok ()

/-! ## `validate_mime_type`

The MIME sniffer `get_mime_type` lives in `ietf/utils/mime.py`, outside the
excerpt; per the spec it is a black-box collaborator mapping a byte buffer
to a `(mime_type, encoding)` pair, and it appears below as the parameter
`gmt`.  The byte-level operations of the validator itself —
`re.search(br'(?m)^virtual\s', raw)` and
`raw.replace(b'virtual', b' virtual')` — are translated from their Python
semantics. -/

/-- The bytes of `b"virtual"`. -/
def virtualBytes : List Nat := [118, 105, 114, 116, 117, 97, 108]

/-- A byte matched by `\s` in a Python bytes pattern:
space, `\t`, `\n`, `\r`, `\f`, `\v`. -/
def isSpaceByte (b : Nat) : Bool :=
  b == 32 || b == 9 || b == 10 || b == 13 || b == 12 || b == 11

/-- The buffer starts with `virtual` followed by a whitespace byte. -/
def startsVirtualSpace (l : List Nat) : Bool :=
  virtualBytes.isPrefixOf l && (match l.drop 7 with
    | b :: _ => isSpaceByte b
    | [] => false)

/-- Helper for `hasVirtualLine`: `atLineStart` records whether the current
position is the start of the buffer or immediately after a `\n` byte. -/
def hasVirtualLineAux : Bool → List Nat → Bool
  | _, [] => false
  | atLineStart, b :: rest =>
    (atLineStart && startsVirtualSpace (b :: rest)) || hasVirtualLineAux (b == 10) rest

/-- `re.search(br'(?m)^virtual\s', raw)` finds a match: some line of the
buffer begins with `virtual` followed by a whitespace byte. -/
def hasVirtualLine (raw : List Nat) : Bool :=
  hasVirtualLineAux true raw

/-- `raw.replace(b'virtual', b' virtual')`: insert a space byte before every
(non-overlapping, left-to-right) occurrence of `virtual`. -/
def replaceVirtual : List Nat → List Nat
  | [] => []
  | b :: rest =>
    if virtualBytes.isPrefixOf (b :: rest) then
      32 :: virtualBytes ++ replaceVirtual (rest.drop 6)
    else
      b :: replaceVirtual rest
termination_by l => l.length
decreasing_by
  all_goals simp only [List.length_drop, List.length_cons]
  all_goals omega

/-- Embedding of `validate_mime_type`.  `gmt` abstracts `get_mime_type`;
`raw` is the content obtained by `file.read()`; `valid` is the list of
allowed MIME types (`if valid and not mime_type in valid` — an empty list
is falsy, so the membership check is skipped). -/
def validate_mime_type (gmt : List Nat → String × String) (valid : List String)
    (raw : List Nat) : Except String (String × String) :=
  let p := gmt raw
  let q :=
    if p.1 == "text/x-c++" && hasVirtualLine raw then gmt (replaceVirtual raw) else p
  if !valid.isEmpty && !valid.contains q.1 then
    Except.error ("Found content with unexpected mime type: " ++ q.1
      ++ ".  Expected one of " ++ String.intercalate ", " valid ++ ".")
  else
    Except.ok q

/-- The (type, encoding) pair the validator works with after the
`virtual`-keyword correction, as the spec describes it: the sniff of the
raw buffer, unless the sniffed type is C++ source and some line begins with
`virtual` plus whitespace, in which case the sniff of the buffer with a
space inserted before every `virtual`. -/
def correctedSniff (gmt : List Nat → String × String) (raw : List Nat) :
    String × String :=
  if (gmt raw).1 == "text/x-c++" && hasVirtualLine raw then
    gmt (replaceVirtual raw)
  else
    gmt raw

/-! ## `validate_file_extension`

`os.path.splitext` (posix flavour: separator `/`) is translated from the
CPython source: the extension starts at the last dot of the last path
component, unless that component consists only of leading dots up to it. -/

/-- Index of the last occurrence of `c` in `l`, if any. -/
def lastIdxOf (c : Char) (l : List Char) : Option Nat :=
  l.enum.foldl (fun acc p => if p.2 = c then some p.1 else acc) none

/-- The index at which `os.path.splitext` (posix) splits off the extension,
if any: the last dot when it lies past the last `/` and the last path
component does not consist only of dots up to it. -/
def splitextIdx (l : List Char) : Option Nat :=
  let sepIdx : Int := match lastIdxOf '/' l with
    | some i => (i : Int)
    | none => -1
  let dotIdx : Int := match lastIdxOf '.' l with
    | some i => (i : Int)
    | none => -1
  if sepIdx < dotIdx then
    let filenameStart := (sepIdx + 1).toNat
    let d := dotIdx.toNat
    if ((l.drop filenameStart).take (d - filenameStart)).any (fun c => c != '.') then
      some d
    else
      none
  else
    none

/-- `os.path.splitext` (posix): split a path into `(root, ext)`. -/
def splitext (p : String) : String × String :=
  match splitextIdx p.data with
  | some d => (⟨p.data.take d⟩, ⟨p.data.drop d⟩)
  | none => (p, "")

/-- Embedding of `validate_file_extension`.  `valid` is the allowed
extension set (a list, as joined into the message by `','.join(valid)`);
`name` is `file.name`. -/
def validate_file_extension (valid : List String) (name : String) :
    Except String String :=
  let ext := (splitext name).2
  if !valid.contains (pyLower ext) then
    Except.error ("Found an unexpected extension: " ++ ext
      ++ ".  Expected one of " ++ String.intercalate "," valid)
  else
    Except.ok ext

/-! ## `validate_no_html_frame`

The content is parsed by PyQuery (an external collaborator) into a document
tree; the validator queries the tree for `frameset`, `frame` and `iframe`
elements, and a non-empty selection is truthy.  The embedding works on the
parsed tree: an element node with a tag and children, or a text node. -/

/-- A node of the parsed document tree. -/
inductive HtmlNode where
  | element (tag : String) (children : List HtmlNode)
  | text (content : String)

mutual

/-- The selection `q(t)` is non-empty: some element with tag `t` occurs
anywhere in the tree rooted at this node. -/
def hasTag (t : String) : HtmlNode → Bool
  | HtmlNode.element tag cs => tag == t || hasTagList t cs
  | HtmlNode.text _ => false

/-- Some element with tag `t` occurs in one of the listed trees. -/
def hasTagList (t : String) : List HtmlNode → Bool
  | [] => false
  | n :: ns => hasTag t n || hasTagList t ns

end

/-- An element with tag `t` occurs somewhere in the tree (the property the
spec states: "a `frameset`, `frame`, or `iframe` element is present
anywhere in the tree"). -/
inductive HasElem (t : String) : HtmlNode → Prop where
  | here (cs : List HtmlNode) : HasElem t (HtmlNode.element t cs)
  | child (tag : String) (cs : List HtmlNode) (n : HtmlNode)
      (hn : n ∈ cs) (h : HasElem t n) : HasElem t (HtmlNode.element tag cs)

/-- Embedding of `validate_no_html_frame`, applied to the parsed document
tree of the file's content. -/
def validate_no_html_frame (doc : HtmlNode) : Except String Unit :=
  if hasTag "frameset" doc || hasTag "frame" doc || hasTag "iframe" doc then
    Except.error "Found content with html frames.  Please upload a file that does not use frames"
  else
    Except.ok ()

/-! ## `validate_external_resource_value`

The sub-validators `validate_url` (`URLValidator()`), `validate_http_url`
(`URLValidator(schemes=['http','https'])`) and `validate_email`
(`EmailValidator()`) are Django collaborators, abstracted as Boolean
predicates (each raises its own message on failure; only acceptance
matters to the claims, and the github branch's own message is concrete).
`urlparse(value).netloc` is translated from the CPython `urlsplit` source:
strip a leading `scheme:` when everything before the first `:` is a scheme
character, then, if the remainder begins with `//`, the netloc is the run
of characters up to the first `/`, `?` or `#`. -/

/-- A character allowed in a URL scheme (`scheme_chars` in CPython's
`urllib.parse`): ASCII letters, digits, `+`, `-`, `.`. -/
def isSchemeChar (c : Char) : Bool :=
  c.isAlpha || c.isDigit || c == '+' || c == '-' || c == '.'

/-- Drop a leading `scheme:` from the character list, as `urlsplit` does:
only when the first `:` occurs at a positive index and every character
before it is a scheme character. -/
def dropScheme (l : List Char) : List Char :=
  match l.findIdx? (fun c => c == ':') with
  | some i =>
    if 0 < i && (l.take i).all isSchemeChar then l.drop (i + 1) else l
  | none => l

/-- `urlparse(s).netloc`: after removing the scheme, the run following a
leading `//` up to the first `/`, `?` or `#` (empty when there is no
`//`). -/
def urlparseNetloc (s : String) : String :=
  match dropScheme s.data with
  | '/' :: '/' :: r => ⟨r.takeWhile (fun c => !(c == '/' || c == '?' || c == '#'))⟩
  | _ => ""

/-- The `type` attribute of a resource name: an external record with a
`slug` and a human-readable `name`. -/
structure ResourceType where
  slug : String
  name : String

/-- A resource name: its own `slug` and its `type` record. -/
structure ResourceName where
  slug : String
  type : ResourceType

/-- Embedding of `validate_external_resource_value`.  `vurl`, `vhttp` and
`vemail` abstract the three Django sub-validator instances (acceptance
predicates); each raises Django's own message on failure, rendered here by
a fixed string per sub-validator. -/
def validate_external_resource_value (vurl vhttp vemail : String → Bool)
    (n : ResourceName) (v : String) : Except String Unit :=
  if n.type.slug == "url" then
    if n.slug == "github_org" || n.slug == "github_repo" then
      if !vhttp v then Except.error "Enter a valid URL."
      else if !(pyLower (urlparseNetloc v) == "github.com") then
        Except.error "URL must be a github url"
      else Except.ok ()
    else if n.slug == "jabber_room" then
      Except.ok ()
    else if !vurl v then Except.error "Enter a valid URL."
    else Except.ok ()
  else if n.type.slug == "email" then
    if !vemail v then Except.error "Enter a valid email address."
    else Except.ok ()
  else if n.type.slug == "string" then
    Except.ok ()
  else
    Except.error ("Unknown resource type " ++ n.type.name)

/-! ## Helper lemmas -/

/-- Characterisation of the match of `^[^\x00-\x1f]*$` (Python `re.search`
semantics): every character is non-control, or the string ends in a newline
preceded only by non-control characters. -/
theorem searchNoCtrl_iff (l : List Char) :
    searchNoCtrlPattern l = true ↔
      ((∀ c ∈ l, 32 ≤ c.toNat) ∨
        (l.getLast? = some '\n' ∧ ∀ c ∈ l.dropLast, 32 ≤ c.toNat)) := by
  simp [searchNoCtrlPattern, isCtrlChar, List.all_eq_true, Nat.not_lt]

/-- If some listed tree contains a `t` element, so does the list search. -/
theorem hasTagList_of_mem {t : String} {n : HtmlNode} {cs : List HtmlNode}
    (hn : n ∈ cs) (h : hasTag t n = true) : hasTagList t cs = true := by
  induction cs with
  | nil => cases hn
  | cons m ms ih =>
    rcases List.mem_cons.mp hn with rfl | hn'
    · simp [hasTagList, h]
    · simp [hasTagList, ih hn']

/-- If the list search succeeds, some listed tree contains a `t` element. -/
theorem hasTagList_exists (t : String) (cs : List HtmlNode)
    (h : hasTagList t cs = true) : ∃ n ∈ cs, hasTag t n = true := by
  induction cs with
  | nil => simp [hasTagList] at h
  | cons m ms ih =>
    rw [hasTagList, Bool.or_eq_true] at h
    rcases h with h | h
    · exact ⟨m, List.mem_cons_self m ms, h⟩
    · obtain ⟨n, hn, hnt⟩ := ih h
      exact ⟨n, List.mem_cons_of_mem m hn, hnt⟩

/-- `HasElem` implies the Boolean search succeeds. -/
theorem HasElem.hasTag_true {t : String} {n : HtmlNode}
    (h : HasElem t n) : hasTag t n = true := by
  induction h with
  | here cs => simp [hasTag]
  | child tag cs n hn _ ih => simp [hasTag, hasTagList_of_mem hn ih]

/-- Bounded-size auxiliary for the converse direction. -/
theorem hasTag_imp_hasElem_aux (t : String) :
    ∀ k : Nat, ∀ n : HtmlNode, sizeOf n < k → hasTag t n = true → HasElem t n := by
  intro k
  induction k with
  | zero => intro n hn h; omega
  | succ k ih =>
    intro n hn h
    cases n with
    | text s => simp [hasTag] at h
    | element tag cs =>
      rw [hasTag, Bool.or_eq_true] at h
      rcases h with h | h
      · rw [show tag = t from by simpa using h]
        exact HasElem.here cs
      · obtain ⟨m, hm, hmt⟩ := hasTagList_exists t cs h
        have hsz : sizeOf m < k := by
          have h2 := List.sizeOf_lt_of_mem hm
          have h3 : sizeOf (HtmlNode.element tag cs) = 1 + sizeOf tag + sizeOf cs := by
            simp
          omega
        exact HasElem.child tag cs m hm (ih m hsz hmt)

/-- The Boolean tag search decides `HasElem`. -/
theorem hasTag_iff_hasElem (t : String) (n : HtmlNode) :
    hasTag t n = true ↔ HasElem t n :=
  ⟨fun h => hasTag_imp_hasElem_aux t (sizeOf n + 1) n (by omega) h,
   HasElem.hasTag_true⟩

/-! ## Claim theorems -/

/-- C1 (counterexample): the claim "for every string containing any byte in
the control range 0x00-0x1F, `validate_no_control_chars` fails" is false:
the string `"\n"` contains the control character `0x0A`, yet the validator
passes it (Python's `$` matches just before a trailing newline, so
`re.search` finds a match of `^[^\x00-\x1f]*$`). -/
theorem c1_no_control_chars_counterexample :
    validate_no_control_chars "\n" = Except.ok () ∧
      '\n' ∈ "\n".data ∧ '\n'.toNat < 32 :=
  ⟨rfl, by decide, by decide⟩

/-- C1 (amended): `validate_no_control_chars` passes a string exactly when
it has no control character below 0x20, or it ends in a newline and has no
control character before that final newline; every failure carries the
fixed message. -/
theorem c1_no_control_chars_amended (s : String) :
    (validate_no_control_chars s = Except.ok () ↔
      ((∀ c ∈ s.data, 32 ≤ c.toNat) ∨
        (s.data.getLast? = some '\n' ∧ ∀ c ∈ s.data.dropLast, 32 ≤ c.toNat))) ∧
    (validate_no_control_chars s = Except.ok () ∨
      validate_no_control_chars s =
        Except.error "Please enter a string without control characters.") := by
  constructor
  · rw [← searchNoCtrl_iff]
    unfold validate_no_control_chars
    split <;> simp_all
  · unfold validate_no_control_chars
    split
    · exact Or.inl rfl
    · exact Or.inr rfl

/-- C9: any two `RegexStringValidator` instances compare equal, an instance
never compares equal to a non-instance, and `__ne__` is the negation of
`__eq__`. -/
theorem c9_validator_equality (a b : RegexStringValidator) (o : PyObject)
    (s : String) :
    a.eq (PyObject.validator b) = true ∧
      a.eq (PyObject.otherObject s) = false ∧
      a.ne o = !(a.eq o) :=
  ⟨rfl, rfl, rfl⟩

/-- C10: with an empty (falsy) allowed set, `validate_mime_type` never
fails and returns the sniffed (possibly `virtual`-corrected) pair. -/
theorem c10_mime_empty_valid (gmt : List Nat → String × String)
    (raw : List Nat) :
    validate_mime_type gmt [] raw = Except.ok (correctedSniff gmt raw) :=
  rfl

/-- C4: `validate_mime_type` succeeds with the corrected sniff (the re-sniff
of the buffer with a space inserted before every `virtual` exactly when the
first sniff says C++ source and some line begins with `virtual` plus
whitespace) iff the allowed set is empty or contains the corrected type;
otherwise it fails with a message listing the found type and the allowed
set. -/
theorem c4_mime_type (gmt : List Nat → String × String) (valid : List String)
    (raw : List Nat) :
    (validate_mime_type gmt valid raw = Except.ok (correctedSniff gmt raw) ↔
      (valid = [] ∨ (correctedSniff gmt raw).1 ∈ valid)) ∧
    (valid ≠ [] → (correctedSniff gmt raw).1 ∉ valid →
      validate_mime_type gmt valid raw =
        Except.error ("Found content with unexpected mime type: "
          ++ (correctedSniff gmt raw).1 ++ ".  Expected one of "
          ++ String.intercalate ", " valid ++ ".")) := by
  have hq : validate_mime_type gmt valid raw =
      (if !valid.isEmpty && !valid.contains (correctedSniff gmt raw).1 then
        Except.error ("Found content with unexpected mime type: "
          ++ (correctedSniff gmt raw).1 ++ ".  Expected one of "
          ++ String.intercalate ", " valid ++ ".")
      else Except.ok (correctedSniff gmt raw)) := rfl
  cases valid with
  | nil => simp [hq]
  | cons a as =>
    by_cases hm : (correctedSniff gmt raw).1 ∈ a :: as
    · have hc : (a :: as).contains (correctedSniff gmt raw).1 = true := by
        simpa [List.contains] using hm
      simp [hq, hc, hm]
    · have hc : (a :: as).contains (correctedSniff gmt raw).1 = false := by
        simpa [List.contains] using hm
      simp [hq, hc, hm]

/-- C4 (witness): a plain-text sniff against an allowed set containing only
HTML fails, listing the found type and the allowed set. -/
theorem c4_mime_type_witness :
    validate_mime_type (fun _ => ("text/plain", "utf-8")) ["text/html"] [] =
      Except.error
        "Found content with unexpected mime type: text/plain.  Expected one of text/html." :=
  (c4_mime_type (fun _ => ("text/plain", "utf-8")) ["text/html"] []).2
    (by decide) (by decide)

/-- C5: `validate_file_size` passes iff the size is at most the configured
maximum, and on failure the message renders both the maximum and the actual
size with `filesizeformat` (largest power-of-1024 unit, one decimal
place). -/
theorem c5_file_size (m s : Nat) :
    (validate_file_size m s = Except.ok () ↔ s ≤ m) ∧
    (m < s → validate_file_size m s =
      Except.error ("Please keep filesize under " ++ filesizeformat m
        ++ ". Requested upload size was " ++ filesizeformat s)) := by
  unfold validate_file_size
  by_cases h : m < s
  · simp [h, Nat.not_le.mpr h]
  · simp [h, Nat.not_lt.mp h]

/-- C5 (witness): a 2 MB upload against a 1 MB maximum fails, and the
1 MB maximum renders as "1.0 MB" (with a no-break space). -/
theorem c5_file_size_witness :
    validate_file_size 1048576 2097152 =
      Except.error ("Please keep filesize under " ++ filesizeformat 1048576
        ++ ". Requested upload size was " ++ filesizeformat 2097152) ∧
    filesizeformat 1048576 = "1.0 MB" ∧ filesizeformat 2097152 = "2.0 MB" :=
  ⟨(c5_file_size 1048576 2097152).2 (by decide), by decide, by decide⟩

/-- C6: `RegexStringValidator.__call__` passes exactly the strings that
compile and do not contain the literal substring `-*`; a compile failure
raises the compile-error message, and a compiling string containing `-*`
raises the dash-star message. -/
theorem c6_regex_string_validator (reCompile : String → Option String)
    (v : String) :
    (RegexStringValidator.call reCompile v = Except.ok () ↔
      (reCompile v = none ∧ strContains v "-*" = false)) ∧
    (∀ e, reCompile v = some e →
      RegexStringValidator.call reCompile v =
        Except.error (regexCompileErrorMsg v e)) ∧
    (reCompile v = none → strContains v "-*" = true →
      RegexStringValidator.call reCompile v = Except.error dashStarMsg) := by
  cases h : reCompile v with
  | some e => simp [RegexStringValidator.call, h]
  | none =>
    cases hc : strContains v "-*" <;>
      simp [RegexStringValidator.call, h, hc]

/-- C6 (witness): with a compiler that accepts everything, `"a-*b"` is
rejected with the dash-star message and `"ab"` passes. -/
theorem c6_regex_string_validator_witness :
    RegexStringValidator.call (fun _ => none) "a-*b" = Except.error dashStarMsg ∧
      RegexStringValidator.call (fun _ => none) "ab" = Except.ok () :=
  ⟨(c6_regex_string_validator (fun _ => none) "a-*b").2.2 rfl (by decide),
   (c6_regex_string_validator (fun _ => none) "ab").1.mpr ⟨rfl, by decide⟩⟩

/-- C2: for a resource name of type slug `url` and own slug `github_org` or
`github_repo`, `validate_external_resource_value` passes iff the HTTP/HTTPS
URL validator accepts the value and the network-location (host) component
extracted by `urlparse`, lower-cased, equals `github.com`; when the URL is
accepted but that component differs, it fails with
"URL must be a github url". -/
theorem c2_github_url (vurl vhttp vemail : String → Bool) (n : ResourceName)
    (v : String) (h1 : n.type.slug = "url")
    (h2 : n.slug = "github_org" ∨ n.slug = "github_repo") :
    (validate_external_resource_value vurl vhttp vemail n v = Except.ok () ↔
      (vhttp v = true ∧ pyLower (urlparseNetloc v) = "github.com")) ∧
    (vhttp v = true → pyLower (urlparseNetloc v) ≠ "github.com" →
      validate_external_resource_value vurl vhttp vemail n v =
        Except.error "URL must be a github url") := by
  have hgh : (n.slug == "github_org" || n.slug == "github_repo") = true := by
    rcases h2 with h2 | h2 <;> simp [h2]
  cases hv : vhttp v with
  | false =>
    simp [validate_external_resource_value, h1, hgh, hv]
  | true =>
    by_cases hg : pyLower (urlparseNetloc v) = "github.com" <;>
      simp [validate_external_resource_value, h1, hgh, hv, hg]

/-- C2 (witness): with an accepting HTTP URL validator, a `github_org`
resource accepts `https://github.com/ietf/ietf` and rejects
`https://gitlab.com/x` with the github-specific message. -/
theorem c2_github_url_witness :
    validate_external_resource_value (fun _ => true) (fun _ => true)
        (fun _ => true) ⟨"github_org", ⟨"url", "URL"⟩⟩
        "https://github.com/ietf/ietf" = Except.ok () ∧
      validate_external_resource_value (fun _ => true) (fun _ => true)
        (fun _ => true) ⟨"github_org", ⟨"url", "URL"⟩⟩
        "https://gitlab.com/x" = Except.error "URL must be a github url" :=
  ⟨(c2_github_url (fun _ => true) (fun _ => true) (fun _ => true)
      ⟨"github_org", ⟨"url", "URL"⟩⟩ "https://github.com/ietf/ietf" rfl
      (Or.inl rfl)).1.mpr ⟨rfl, by decide⟩,
   (c2_github_url (fun _ => true) (fun _ => true) (fun _ => true)
      ⟨"github_org", ⟨"url", "URL"⟩⟩ "https://gitlab.com/x" rfl
      (Or.inl rfl)).2 rfl (by decide)⟩

/-- C3 (counterexample): the claim "on success returns the lower-cased
extension", with its own example, is false: with allowed set
`[".pdf", ".txt"]` and file name `"README.TXT"` the validator passes but
returns `".TXT"` (the extension as found), not `".txt"`. -/
theorem c3_file_extension_counterexample :
    validate_file_extension [".pdf", ".txt"] "README.TXT" =
        Except.ok ".TXT" ∧ ".TXT" ≠ ".txt" :=
  ⟨rfl, by decide⟩

/-- C3 (amended): `validate_file_extension` splits the name into a base and
an extension whose concatenation is the name, lower-cases the extension for
the membership test against the allowed set, fails reporting the found
extension and the allowed set when the lower-cased extension is absent, and
on success returns the extension *as found in the name* (not lower-cased);
with allowed set `[".pdf", ".txt"]` and name `"README.TXT"` it passes and
returns `".TXT"`. -/
theorem c3_file_extension_amended (valid : List String) (name : String) :
    ((splitext name).1 ++ (splitext name).2 = name) ∧
    (validate_file_extension valid name = Except.ok (splitext name).2 ↔
      pyLower (splitext name).2 ∈ valid) ∧
    (pyLower (splitext name).2 ∉ valid →
      validate_file_extension valid name =
        Except.error ("Found an unexpected extension: " ++ (splitext name).2
          ++ ".  Expected one of " ++ String.intercalate "," valid)) := by
  refine ⟨?_, ?_⟩
  · cases h : splitextIdx name.data with
    | none =>
      have h2 : splitext name = (name, "") := by simp [splitext, h]
      rw [h2]
      exact congrArg String.mk (List.append_nil name.data)
    | some d =>
      have h2 : splitext name = (⟨name.data.take d⟩, ⟨name.data.drop d⟩) := by
        simp [splitext, h]
      rw [h2]
      exact congrArg String.mk (List.take_append_drop d name.data)
  · by_cases hm : pyLower (splitext name).2 ∈ valid
    · have hc : valid.contains (pyLower (splitext name).2) = true := by
        simpa [List.contains] using hm
      simp [validate_file_extension, hc, hm]
    · have hc : valid.contains (pyLower (splitext name).2) = false := by
        simpa [List.contains] using hm
      simp [validate_file_extension, hc, hm]

/-- C3 (amended, witness): `".doc"` is not among `[".pdf"]`, so `"x.doc"`
is rejected reporting the found extension and the allowed set, and
`"README.TXT"` passes, returning its extension. -/
theorem c3_file_extension_amended_witness :
    validate_file_extension [".pdf"] "x.doc" =
        Except.error ("Found an unexpected extension: " ++ (splitext "x.doc").2
          ++ ".  Expected one of " ++ String.intercalate "," [".pdf"]) ∧
      validate_file_extension [".pdf", ".txt"] "README.TXT" =
        Except.ok (splitext "README.TXT").2 :=
  ⟨(c3_file_extension_amended [".pdf"] "x.doc").2.2 (by decide),
   (c3_file_extension_amended [".pdf", ".txt"] "README.TXT").2.1.mpr (by decide)⟩

/-- C7 (counterexample): the claim "for type slug `bogus` the failure
message names `bogus`" is false: the message interpolates the type's
human-readable `name` attribute, not its slug, so a type with slug
`"bogus"` and name `"Mystery"` yields
`"Unknown resource type Mystery"`, which does not contain `"bogus"`. -/
theorem c7_unknown_type_counterexample :
    validate_external_resource_value (fun _ => true) (fun _ => true)
        (fun _ => true) ⟨"x", ⟨"bogus", "Mystery"⟩⟩ "v" =
        Except.error "Unknown resource type Mystery" ∧
      strContains "Unknown resource type Mystery" "bogus" = false :=
  ⟨rfl, by decide⟩

/-- C7 (amended): for every resource name whose type slug is none of `url`,
`email`, `string`, the validator fails with
`"Unknown resource type "` followed by the type's `name` attribute (which
names `"bogus"` exactly when the type's name — not necessarily its slug —
is `"bogus"`). -/
theorem c7_unknown_type_amended (vurl vhttp vemail : String → Bool)
    (n : ResourceName) (v : String) (h1 : n.type.slug ≠ "url")
    (h2 : n.type.slug ≠ "email") (h3 : n.type.slug ≠ "string") :
    validate_external_resource_value vurl vhttp vemail n v =
      Except.error ("Unknown resource type " ++ n.type.name) := by
  simp [validate_external_resource_value, h1, h2, h3]

/-- C7 (amended, witness): a type whose slug and name are both `"bogus"`
fails with a message that does contain `"bogus"`. -/
theorem c7_unknown_type_amended_witness :
    validate_external_resource_value (fun _ => true) (fun _ => true)
        (fun _ => true) ⟨"x", ⟨"bogus", "bogus"⟩⟩ "v" =
        Except.error ("Unknown resource type " ++ "bogus") ∧
      strContains ("Unknown resource type " ++ "bogus") "bogus" = true :=
  ⟨c7_unknown_type_amended (fun _ => true) (fun _ => true) (fun _ => true)
      ⟨"x", ⟨"bogus", "bogus"⟩⟩ "v" (by decide) (by decide) (by decide),
   by decide⟩

/-- C8: `validate_no_html_frame` fails on the parsed document tree iff a
`frameset`, `frame` or `iframe` element is present anywhere in the tree,
and on failure carries the fixed message. -/
theorem c8_html_frame (doc : HtmlNode) :
    (validate_no_html_frame doc = Except.ok () ↔
      ¬(HasElem "frameset" doc ∨ HasElem "frame" doc ∨ HasElem "iframe" doc)) ∧
    ((HasElem "frameset" doc ∨ HasElem "frame" doc ∨ HasElem "iframe" doc) →
      validate_no_html_frame doc =
        Except.error "Found content with html frames.  Please upload a file that does not use frames") := by
  rw [← hasTag_iff_hasElem, ← hasTag_iff_hasElem, ← hasTag_iff_hasElem]
  unfold validate_no_html_frame
  cases h1 : hasTag "frameset" doc <;> cases h2 : hasTag "frame" doc <;>
    cases h3 : hasTag "iframe" doc <;> simp

/-- C8 (witness): a document containing `<iframe src="x">` fails; a
document with no frame-family elements passes. -/
theorem c8_html_frame_witness :
    validate_no_html_frame
        (HtmlNode.element "html"
          [HtmlNode.element "body" [HtmlNode.element "iframe" []]]) =
        Except.error "Found content with html frames.  Please upload a file that does not use frames" ∧
      validate_no_html_frame
        (HtmlNode.element "html"
          [HtmlNode.element "body" [HtmlNode.text "hello"]]) = Except.ok () :=
  ⟨(c8_html_frame _).2
      (Or.inr (Or.inr
        (HasElem.child "html" [HtmlNode.element "body" [HtmlNode.element "iframe" []]]
          (HtmlNode.element "body" [HtmlNode.element "iframe" []])
          (List.mem_singleton.mpr rfl)
          (HasElem.child "body" [HtmlNode.element "iframe" []]
            (HtmlNode.element "iframe" []) (List.mem_singleton.mpr rfl)
            (HasElem.here []))))),
   (c8_html_frame _).1.mpr (by
      rintro (h | h | h) <;> rw [← hasTag_iff_hasElem] at h <;>
        exact absurd h (by decide))⟩

end IetfValidators
